import Mathlib

/- Verification of the My Content content-based recommendation engine.

The embedding below translates my_content/recommendation_engine.py
(class ContentRecommender), together with the Azure Function variant
azure_function/function_app.py where the two differ.  DataFrames become
lists of rows, numpy arrays become lists, and the score type is kept
generic in a linearly ordered field so that the structural operations can
be instantiated both with exact reals (for the cosine-similarity engine)
and with rationals (for executable witnesses).  Metadata rows come in two
granularities: ArticleRow, whose Option fields are none exactly when the
CSV column is absent (the NaN-free case; the ranking claims never inspect
the enriched fields), and ArticleRowCells, which models the full pandas
cell semantics — absent column, present-but-NaN cell, present value —
including the int(NaN) error paths of the catalog lookup; on NaN-free
catalogs the two lookups agree (getArticleInfoCells_agrees). -/

namespace MyContent

/-- A single interaction event: (user_id, click_article_id), one row of
the clicks CSV files. -/
abbrev Click := Int × Int

/-- One row of articles_metadata.csv in the NaN-free case: an optional
field is none exactly when the CSV column is absent, so the pandas .get
default applies.  Present-but-NaN cells, on which the catalog lookup can
raise, are modelled by ArticleRowCells below. -/
structure ArticleRow where
  article_id : Int
  title : Option String := none
  category_id : Option Int := none
  words_count : Option Int := none
deriving DecidableEq

/-- The enriched article record built by ContentRecommender._get_article_info
(before the recommendation_score is attached).  The engine returns the raw
integer category when present and the sentinel string N/A otherwise; both
are rendered here as strings. -/
structure ArticleInfo where
  article_id : Int
  title : String
  category : String
  words_count : Int
deriving DecidableEq

/-- A recommendation result entry: an ArticleInfo plus recommendation_score. -/
structure Entry (α : Type) where
  article_id : Int
  title : String
  category : String
  words_count : Int
  recommendation_score : α
deriving DecidableEq

/-- Attaching a recommendation_score to an article record. -/
def ArticleInfo.withScore {α : Type} (info : ArticleInfo) (s : α) : Entry α :=
  ⟨info.article_id, info.title, info.category, info.words_count, s⟩

/-- pandas Series.unique: deduplicate keeping the first occurrence of each
value, preserving order. -/
def uniqueKeepFirst (l : List Int) : List Int :=
  l.foldl (fun acc x => if x ∈ acc then acc else acc ++ [x]) []

/-- ContentRecommender.get_user_history: restrict the clicks to the user and
deduplicate the clicked article ids (pandas unique, first-occurrence order).
An empty or missing log yields the empty history. -/
def get_user_history (clicks : List Click) (user_id : Int) : List Int :=
  uniqueKeepFirst ((clicks.filter (fun c => decide (c.1 = user_id))).map (fun c => c.2))

/-- Each value of a list tagged with its index: (0, l₀), (1, l₁), …; used to
model numpy argsort (sorting indices by value) and the stability of Python
sorts (ties fall back to the original position). -/
def rangeMap {β : Type} (l : List β) (d : β) : List (ℕ × β) :=
  (List.range l.length).map (fun i => (i, l.getD i d))

/-- The comparison modelling np.argsort: ascending by value, ties broken by
original index (numpy argsort is stable on the small arrays concerned). -/
def ascIdx {α : Type} [LinearOrder α] (p q : ℕ × α) : Prop :=
  p.2 < q.2 ∨ (p.2 = q.2 ∧ p.1 ≤ q.1)

instance {α : Type} [LinearOrder α] : DecidableRel (@ascIdx α _) :=
  fun p q => inferInstanceAs (Decidable (p.2 < q.2 ∨ (p.2 = q.2 ∧ p.1 ≤ q.1)))

instance {α : Type} [LinearOrder α] : IsTotal (ℕ × α) ascIdx where
  total p q := by
    unfold ascIdx
    rcases lt_trichotomy p.2 q.2 with h | h | h
    · exact Or.inl (Or.inl h)
    · rcases Nat.le_total p.1 q.1 with h1 | h1
      · exact Or.inl (Or.inr ⟨h, h1⟩)
      · exact Or.inr (Or.inr ⟨h.symm, h1⟩)
    · exact Or.inr (Or.inl h)

instance {α : Type} [LinearOrder α] : IsTrans (ℕ × α) ascIdx where
  trans p q r := by
    unfold ascIdx
    rintro (h1 | ⟨h1, h1i⟩) (h2 | ⟨h2, h2i⟩)
    · exact Or.inl (h1.trans h2)
    · exact Or.inl (h2 ▸ h1)
    · exact Or.inl (h1 ▸ h2)
    · exact Or.inr ⟨h1.trans h2, h1i.trans h2i⟩

/-- The comparison modelling Python sorted(items, key, reverse=True):
descending by key, ties broken by original position (Python sorts are
stable). -/
def descIdx {α β : Type} [LinearOrder α] (key : β → α) (p q : ℕ × β) : Prop :=
  key q.2 < key p.2 ∨ (key p.2 = key q.2 ∧ p.1 ≤ q.1)

instance {α β : Type} [LinearOrder α] (key : β → α) : DecidableRel (descIdx key) :=
  fun p q => inferInstanceAs (Decidable (key q.2 < key p.2 ∨ (key p.2 = key q.2 ∧ p.1 ≤ q.1)))

instance {α β : Type} [LinearOrder α] (key : β → α) : IsTotal (ℕ × β) (descIdx key) where
  total p q := by
    unfold descIdx
    rcases lt_trichotomy (key p.2) (key q.2) with h | h | h
    · exact Or.inr (Or.inl h)
    · rcases Nat.le_total p.1 q.1 with h1 | h1
      · exact Or.inl (Or.inr ⟨h, h1⟩)
      · exact Or.inr (Or.inr ⟨h.symm, h1⟩)
    · exact Or.inl (Or.inl h)

instance {α β : Type} [LinearOrder α] (key : β → α) : IsTrans (ℕ × β) (descIdx key) where
  trans p q r := by
    unfold descIdx
    rintro (h1 | ⟨h1, h1i⟩) (h2 | ⟨h2, h2i⟩)
    · exact Or.inl (h2.trans h1)
    · exact Or.inl (h2 ▸ h1)
    · exact Or.inl (h1 ▸ h2)
    · exact Or.inr ⟨h1.trans h2, h1i.trans h2i⟩

/-- Python sorted(items, key=…, reverse=True): stable descending sort by
key, modelled by tagging each element with its original position, sorting
lexicographically (key descending, position ascending) and dropping the
tags. -/
def sortDescBy {α β : Type} [LinearOrder α] (key : β → α) (l : List β) (d : β) : List β :=
  ((rangeMap l d).insertionSort (descIdx key)).map Prod.snd

/-- ContentRecommender.get_similar_articles, generic in the score type and
the similarity function simf (the engine instantiates simf with sklearn
cosine similarity over ℝ, see get_similar_articles below); dV is a default
vector, never reached on well-formed stores.  Mirrors the source: locate
article_id in the id list (the except ValueError branch returns [] when it
is absent), compute the similarity of its vector against every stored
vector, argsort ascending, reverse, drop the first entry (intended to be
the query item itself) and keep the next top_k, returning (id, score)
pairs. -/
def getSimilarArticlesWith {V α : Type} [LinearOrderedField α] (simf : V → V → α)
    (article_ids : List Int) (embeddings : List V) (dV : V)
    (article_id : Int) (top_k : ℕ) : List (Int × α) :=
  if article_id ∈ article_ids then
    let article_idx := article_ids.indexOf article_id
    let similarities := embeddings.map (simf (embeddings.getD article_idx dV))
    let order := (rangeMap similarities 0).insertionSort ascIdx
    ((order.reverse.drop 1).take top_k).map (fun p => (article_ids.getD p.1 0, p.2))
  else []

/-- One update of the recommendations_scores dict: initialize an absent key
to 0 then add the score, i.e. add in place when the key is present and
append (key, score) otherwise (Python dicts preserve insertion order). -/
def addScore {α : Type} [Add α] : List (Int × α) → Int → α → List (Int × α)
  | [], aid, s => [(aid, s)]
  | (k, v) :: rest, aid, s =>
    if k = aid then (k, v + s) :: rest else (k, v) :: addScore rest aid s

/-- The inner loop of recommend_for_user for one seed history item: fold
its 20 most similar articles into the score dict, skipping every article
already present in the user's full history. -/
def accumSeed {V α : Type} [LinearOrderedField α] (simf : V → V → α)
    (article_ids : List Int) (embeddings : List V) (dV : V) (history : List Int)
    (d : List (Int × α)) (seed : Int) : List (Int × α) :=
  (getSimilarArticlesWith simf article_ids embeddings dV seed 20).foldl
    (fun d p => if p.1 ∈ history then d else addScore d p.1 p.2) d

/-- The candidate accumulation of recommend_for_user: at most the first 5
history items seed the expansion. -/
def accumulateScores {V α : Type} [LinearOrderedField α] (simf : V → V → α)
    (article_ids : List Int) (embeddings : List V) (dV : V)
    (history : List Int) : List (Int × α) :=
  (history.take 5).foldl (accumSeed simf article_ids embeddings dV history) []

/-- ContentRecommender._get_article_info restricted to NaN-free rows;
find? models taking the first metadata row whose article_id column
matches.  The full cell semantics — including the ValueError raised by
int() on a present-but-NaN words_count cell and the NaN category passed
through unchanged — is getArticleInfoCells; on NaN-free catalogs the two
agree (getArticleInfoCells_agrees). -/
def getArticleInfo (metadata : List ArticleRow) (article_id : Int) : ArticleInfo :=
  match metadata.find? (fun r => decide (r.article_id = article_id)) with
  | none => ⟨article_id, "Article " ++ toString article_id, "N/A", 0⟩
  | some row =>
    ⟨article_id,
     match row.title with
     | none => "Article " ++ toString article_id
     | some s => if s = "" then "Article " ++ toString article_id else s,
     match row.category_id with
     | none => "N/A"
     | some c => toString c,
     row.words_count.getD 0⟩

/-- The empty-clicks branch of _get_popular_articles: the first top_n
metadata rows in catalog order; each entry is built inline with plain .get
defaults, and recommendation_score is top_n minus the number of entries
already built (i.e. the row position). -/
def catalogFallback {α : Type} [LinearOrderedField α]
    (metadata : List ArticleRow) (top_n : ℕ) : List (Entry α) :=
  (rangeMap (metadata.take top_n) ⟨0, none, none, none⟩).map (fun p =>
    ⟨p.2.article_id,
     p.2.title.getD ("Article " ++ toString p.2.article_id),
     (p.2.category_id.map toString).getD "N/A",
     p.2.words_count.getD 0,
     ((top_n - p.1 : ℕ) : α)⟩)

/-- pandas value_counts on the click_article_id column: (article_id, count)
pairs for the distinct clicked ids, sorted by count descending.  The tie
order among equal counts is unspecified in pandas; first-occurrence order
is fixed here, and no verified property depends on it. -/
def valueCounts (clicks : List Click) : List (Int × ℕ) :=
  sortDescBy (fun p => p.2)
    ((uniqueKeepFirst (clicks.map (fun c => c.2))).map
      (fun i => (i, (clicks.map (fun c => c.2)).count i))) (0, 0)

/-- ContentRecommender._get_popular_articles: catalog order with synthetic
scores when the click log is empty, interaction counts otherwise. -/
def getPopularArticles {α : Type} [LinearOrderedField α]
    (metadata : List ArticleRow) (clicks : List Click) (top_n : ℕ) : List (Entry α) :=
  if clicks = [] then catalogFallback metadata top_n
  else
    ((valueCounts clicks).take top_n).map (fun p =>
      (getArticleInfo metadata p.1).withScore ((p.2 : ℕ) : α))

/-- ContentRecommender.recommend_for_user, generic in the score type and
similarity function. -/
def recommendForUserWith {V α : Type} [LinearOrderedField α] (simf : V → V → α)
    (article_ids : List Int) (embeddings : List V) (dV : V)
    (metadata : List ArticleRow) (clicks : List Click)
    (user_id : Int) (top_n : ℕ) : List (Entry α) :=
  if get_user_history clicks user_id = [] then getPopularArticles metadata clicks top_n
  else
    ((sortDescBy (fun p => p.2)
        (accumulateScores simf article_ids embeddings dV
          (get_user_history clicks user_id)) (0, 0)).take top_n).map
      (fun p => (getArticleInfo metadata p.1).withScore p.2)

/-- Dot product of two embedding rows. -/
def dotp (x y : List ℝ) : ℝ := (List.zipWith (fun a b => a * b) x y).sum

/-- The row norm used by sklearn cosine_similarity: the Euclidean norm with
zero norms replaced by 1 (sklearn normalize guards division by zero this
way, leaving zero rows as zero). -/
noncomputable def rowNorm (x : List ℝ) : ℝ :=
  if Real.sqrt (dotp x x) = 0 then 1 else Real.sqrt (dotp x x)

/-- sklearn cosine_similarity of two rows: dot product divided by the
product of the (guarded) norms. -/
noncomputable def cosine_similarity (x y : List ℝ) : ℝ :=
  dotp x y / (rowNorm x * rowNorm y)

/-- ContentRecommender.get_similar_articles with the actual cosine metric
over exact reals. -/
noncomputable def get_similar_articles (article_ids : List Int)
    (embeddings : List (List ℝ)) (article_id : Int) (top_k : ℕ) : List (Int × ℝ) :=
  getSimilarArticlesWith cosine_similarity article_ids embeddings [] article_id top_k

/-- ContentRecommender.recommend_for_user with the actual cosine metric. -/
noncomputable def recommend_for_user (article_ids : List Int)
    (embeddings : List (List ℝ)) (metadata : List ArticleRow) (clicks : List Click)
    (user_id : Int) (top_n : ℕ) : List (Entry ℝ) :=
  recommendForUserWith cosine_similarity article_ids embeddings [] metadata clicks user_id top_n

/-- The similarity row used by get_similar_articles for the query index q:
the cosine similarity of the q-th stored vector against every stored
vector. -/
noncomputable def simRow (embeddings : List (List ℝ)) (q : ℕ) : List ℝ :=
  embeddings.map (cosine_similarity (embeddings.getD q []))

/-- ContentRecommender._load_data, dict branch: ids are the keys in
insertion order and the matrix collects their vectors in that order. -/
def loadDict {V : Type} (d : List (Int × V)) : List Int × List V :=
  (d.map Prod.fst, d.map Prod.snd)

/-- ContentRecommender._load_data, tuple branch: (id list, matrix) taken
as given. -/
def loadPair {V : Type} (ids : List Int) (mat : List V) : List Int × List V :=
  (ids, mat)

/-- ContentRecommender._load_data, bare-matrix branch: the first (number of
rows) catalog ids are assigned positionally. -/
def loadMatrix {V : Type} (mat : List V) (catalog_ids : List Int) : List Int × List V :=
  (catalog_ids.take mat.length, mat)

/-- The Embedding Store lookup embeddings[article_ids.index(id)] (vector_of
in the spec); none models the ValueError raised when the id is absent. -/
def vector_of {V : Type} (s : List Int × List V) (article_id : Int) : Option V :=
  if article_id ∈ s.1 then s.2[s.1.indexOf article_id]? else none

/-- function_app.get_article_info restricted to NaN-free rows: the title
is always synthesized, and the default for an absent category column is
the integer 0 (rendered as a string here, like the engine's category
field).  The full cell semantics, where int() raises on a NaN category_id
or words_count cell, is fnGetArticleInfoCells. -/
def fnGetArticleInfo (metadata : List ArticleRow) (article_id : Int) : ArticleInfo :=
  match metadata.find? (fun r => decide (r.article_id = article_id)) with
  | none => ⟨article_id, "Article " ++ toString article_id, "N/A", 0⟩
  | some row =>
    ⟨article_id, "Article " ++ toString article_id,
     toString (row.category_id.getD 0), row.words_count.getD 0⟩

/-- function_app.recommend_for_user: unlike the engine, its empty-history
branch ignores interaction counts and always returns the first top_n store
ids with synthetic scores top_n, top_n-1, …. -/
def fnRecommendForUser {V α : Type} [LinearOrderedField α] (simf : V → V → α)
    (article_ids : List Int) (embeddings : List V) (dV : V)
    (metadata : List ArticleRow) (clicks : List Click)
    (user_id : Int) (top_n : ℕ) : List (Entry α) :=
  if get_user_history clicks user_id = [] then
    (rangeMap (article_ids.take top_n) 0).map (fun p =>
      (fnGetArticleInfo metadata p.2).withScore ((top_n - p.1 : ℕ) : α))
  else
    ((sortDescBy (fun p => p.2)
        (accumulateScores simf article_ids embeddings dV
          (get_user_history clicks user_id)) (0, 0)).take top_n).map
      (fun p => (fnGetArticleInfo metadata p.1).withScore p.2)

/-- A metadata cell as pandas materializes it: the column can be absent
from the CSV (Series.get then returns the caller's default), present but
empty (pandas NaN), or present with a value. -/
inductive Cell (τ : Type) where
  | absent
  | nan
  | val (v : τ)
deriving DecidableEq

/-- One row of articles_metadata.csv with the full pandas cell semantics;
used by the catalog-lookup claim, where present-but-NaN cells matter. -/
structure ArticleRowCells where
  article_id : Int
  title : Cell String := Cell.absent
  category_id : Cell Int := Cell.absent
  words_count : Cell Int := Cell.absent
deriving DecidableEq

/-- The category value the engine's lookup actually returns: the raw
integer when the cell holds one, the string sentinel N/A when the column
is absent, and pandas NaN passed through unchanged when the cell is
empty. -/
inductive CategoryValue where
  | na
  | nan
  | cat (c : Int)
deriving DecidableEq

/-- The record _get_article_info builds when it does not raise. -/
structure ArticleInfoCells where
  article_id : Int
  title : String
  category : CategoryValue
  words_count : Int
deriving DecidableEq

/-- Python int() applied to a cell fetched with a .get default: the
default on an absent column, the value itself when present, and a
ValueError (cannot convert float NaN to integer) on a present-but-NaN
cell. -/
def intOfCell (c : Cell Int) (d : Int) : Except String Int :=
  match c with
  | Cell.absent => Except.ok d
  | Cell.nan => Except.error "cannot convert float NaN to integer"
  | Cell.val v => Except.ok v

/-- ContentRecommender._get_article_info with the full pandas cell
semantics: the title falls back on an absent, NaN or empty cell (the
pd.isna and empty-string checks), the category cell is returned as-is —
the sentinel N/A only when the column is absent, a NaN cell passed
through — and int(...) on the words_count cell raises on NaN, aborting
the lookup. -/
def getArticleInfoCells (metadata : List ArticleRowCells) (article_id : Int) :
    Except String ArticleInfoCells :=
  match metadata.find? (fun r => decide (r.article_id = article_id)) with
  | none =>
    Except.ok ⟨article_id, "Article " ++ toString article_id, CategoryValue.na, 0⟩
  | some row =>
    match intOfCell row.words_count 0 with
    | Except.error e => Except.error e
    | Except.ok w =>
      Except.ok ⟨article_id,
        match row.title with
        | Cell.absent => "Article " ++ toString article_id
        | Cell.nan => "Article " ++ toString article_id
        | Cell.val s => if s = "" then "Article " ++ toString article_id else s,
        match row.category_id with
        | Cell.absent => CategoryValue.na
        | Cell.nan => CategoryValue.nan
        | Cell.val c => CategoryValue.cat c,
        w⟩

/-- function_app.get_article_info with the full pandas cell semantics:
the unknown-identifier record matches the engine's, but on a found row
the title is always synthesized and both category_id and words_count go
through int(), so the lookup raises on a NaN in either (category first,
matching the dict literal's evaluation order) and an absent category
column defaults to the integer 0. -/
def fnGetArticleInfoCells (metadata : List ArticleRowCells) (article_id : Int) :
    Except String ArticleInfoCells :=
  match metadata.find? (fun r => decide (r.article_id = article_id)) with
  | none =>
    Except.ok ⟨article_id, "Article " ++ toString article_id, CategoryValue.na, 0⟩
  | some row =>
    match intOfCell row.category_id 0 with
    | Except.error e => Except.error e
    | Except.ok c =>
      match intOfCell row.words_count 0 with
      | Except.error e => Except.error e
      | Except.ok w =>
        Except.ok ⟨article_id, "Article " ++ toString article_id,
          CategoryValue.cat c, w⟩

/-- Rendering of a category value as the serving layer would print it;
the sentinel for an absent category column is the string N/A. -/
def renderCategory : CategoryValue → String
  | CategoryValue.na => "N/A"
  | CategoryValue.nan => "NaN"
  | CategoryValue.cat c => toString c

/-- A row with no present-but-NaN cell: the case in which the catalog
lookup cannot raise. -/
def ArticleRowCells.noNaN (r : ArticleRowCells) : Prop :=
  r.title ≠ Cell.nan ∧ r.category_id ≠ Cell.nan ∧ r.words_count ≠ Cell.nan

/-- Projection of a NaN-free cell row onto the coarse row used by the
ranking claims (whose statements never inspect the enriched fields). -/
def projRow (r : ArticleRowCells) : ArticleRow :=
  ⟨r.article_id,
   match r.title with
   | Cell.val s => some s
   | _ => none,
   match r.category_id with
   | Cell.val c => some c
   | _ => none,
   match r.words_count with
   | Cell.val w => some w
   | _ => none⟩

/- ------------------------------------------------------------------ -/
/- Infrastructure lemmas                                               -/
/- ------------------------------------------------------------------ -/

theorem pairwise_take_drop {γ : Type} {R : γ → γ → Prop} {l : List γ}
    (hp : List.Pairwise R l) (n : ℕ) :
    ∀ a ∈ l.take n, ∀ b ∈ l.drop n, R a b := by
  have h := hp
  rw [← List.take_append_drop n l, List.pairwise_append] at h
  exact h.2.2

theorem mem_rangeMap {β : Type} {l : List β} {d : β} {i : ℕ} {x : β} :
    (i, x) ∈ rangeMap l d ↔ i < l.length ∧ x = l.getD i d := by
  unfold rangeMap
  simp only [List.mem_map, List.mem_range, Prod.mk.injEq]
  constructor
  · rintro ⟨j, hj, rfl, rfl⟩; exact ⟨hj, rfl⟩
  · rintro ⟨h1, rfl⟩; exact ⟨i, h1, rfl, rfl⟩

theorem nodup_rangeMap {β : Type} (l : List β) (d : β) : (rangeMap l d).Nodup :=
  (List.nodup_range l.length).map (fun a b h => congrArg Prod.fst h)

theorem map_snd_rangeMap {β : Type} (l : List β) (d : β) :
    (rangeMap l d).map Prod.snd = l := by
  apply List.ext_getElem
  · simp [rangeMap]
  · intro n h1 h2
    simp [rangeMap, List.getElem?_eq_getElem h2]

theorem sortDescBy_perm {α β : Type} [LinearOrder α] (key : β → α) (l : List β) (d : β) :
    (sortDescBy key l d).Perm l := by
  unfold sortDescBy
  have h := (List.perm_insertionSort (descIdx key) (rangeMap l d)).map Prod.snd
  rwa [map_snd_rangeMap] at h

theorem sortDescBy_sorted {α β : Type} [LinearOrder α] (key : β → α) (l : List β) (d : β) :
    List.Pairwise (fun a b => key b ≤ key a) (sortDescBy key l d) := by
  unfold sortDescBy
  rw [List.pairwise_map]
  refine (List.sorted_insertionSort (descIdx key) (rangeMap l d)).imp ?_
  rintro a b (h | ⟨h, _⟩)
  · exact le_of_lt h
  · exact le_of_eq h.symm

theorem sortDescBy_take_drop {α β : Type} [LinearOrder α] (key : β → α)
    (l : List β) (d : β) (n : ℕ) :
    ∀ a ∈ (sortDescBy key l d).take n, ∀ b ∈ (sortDescBy key l d).drop n, key b ≤ key a :=
  pairwise_take_drop (sortDescBy_sorted key l d) n

theorem mem_uniqueKeepFirst_aux (l : List Int) :
    ∀ (acc : List Int) (x : Int),
      x ∈ l.foldl (fun acc x => if x ∈ acc then acc else acc ++ [x]) acc ↔
        x ∈ acc ∨ x ∈ l := by
  induction l with
  | nil => intro acc x; simp
  | cons y ys ih =>
    intro acc x
    rw [List.foldl_cons, ih]
    by_cases hy : y ∈ acc
    · rw [if_pos hy]
      constructor
      · rintro (h | h)
        · exact Or.inl h
        · exact Or.inr (List.mem_cons_of_mem y h)
      · rintro (h | h)
        · exact Or.inl h
        · rcases List.mem_cons.mp h with rfl | h2
          · exact Or.inl hy
          · exact Or.inr h2
    · rw [if_neg hy]
      simp only [List.mem_append, List.mem_singleton, List.mem_cons]
      tauto

theorem mem_uniqueKeepFirst {l : List Int} {x : Int} :
    x ∈ uniqueKeepFirst l ↔ x ∈ l := by
  unfold uniqueKeepFirst
  rw [mem_uniqueKeepFirst_aux l [] x]
  simp

theorem nodup_uniqueKeepFirst (l : List Int) : (uniqueKeepFirst l).Nodup := by
  unfold uniqueKeepFirst
  have h : ∀ (acc : List Int), acc.Nodup →
      (l.foldl (fun acc x => if x ∈ acc then acc else acc ++ [x]) acc).Nodup := by
    induction l with
    | nil => intro acc hacc; exact hacc
    | cons y ys ih =>
      intro acc hacc
      rw [List.foldl_cons]
      by_cases hy : y ∈ acc
      · rw [if_pos hy]; exact ih acc hacc
      · rw [if_neg hy]
        refine ih _ (hacc.append (List.nodup_singleton y) ?_)
        simpa [List.disjoint_singleton] using hy
  exact h [] List.nodup_nil

theorem addScore_map_fst {α : Type} [Add α] (d : List (Int × α)) (aid : Int) (s : α) :
    (addScore d aid s).map Prod.fst =
      if aid ∈ d.map Prod.fst then d.map Prod.fst else d.map Prod.fst ++ [aid] := by
  induction d with
  | nil => simp [addScore]
  | cons p rest ih =>
    obtain ⟨k, v⟩ := p
    by_cases hk : k = aid
    · subst hk; simp [addScore]
    · by_cases hm : aid ∈ rest.map Prod.fst <;>
        simp [addScore, hk, ih, hm, Ne.symm hk]

theorem mem_addScore_fst {α : Type} [Add α] {d : List (Int × α)} {aid : Int} {s : α}
    {x : Int} (h : x ∈ (addScore d aid s).map Prod.fst) :
    x ∈ d.map Prod.fst ∨ x = aid := by
  rw [addScore_map_fst] at h
  by_cases hm : aid ∈ d.map Prod.fst
  · rw [if_pos hm] at h; exact Or.inl h
  · rw [if_neg hm] at h
    rcases List.mem_append.mp h with h1 | h1
    · exact Or.inl h1
    · exact Or.inr (List.mem_singleton.mp h1)

theorem nodup_addScore {α : Type} [Add α] {d : List (Int × α)}
    (h : (d.map Prod.fst).Nodup) (aid : Int) (s : α) :
    ((addScore d aid s).map Prod.fst).Nodup := by
  rw [addScore_map_fst]
  by_cases hm : aid ∈ d.map Prod.fst
  · rwa [if_pos hm]
  · rw [if_neg hm]
    refine h.append (List.nodup_singleton aid) ?_
    simpa [List.disjoint_singleton] using hm

theorem foldl_invariant {σ τ : Type} (P : σ → Prop) (f : σ → τ → σ)
    (h : ∀ s t, P s → P (f s t)) : ∀ (l : List τ) (s : σ), P s → P (l.foldl f s) := by
  intro l
  induction l with
  | nil => intro s hs; exact hs
  | cons t ts ih => intro s hs; exact ih _ (h s t hs)

theorem accumSeed_preserves {V α : Type} [LinearOrderedField α] (simf : V → V → α)
    (article_ids : List Int) (embeddings : List V) (dV : V) (history : List Int)
    (P : List (Int × α) → Prop)
    (hstep : ∀ d aid s, aid ∉ history → P d → P (addScore d aid s))
    (d : List (Int × α)) (seed : Int) (hd : P d) :
    P (accumSeed simf article_ids embeddings dV history d seed) := by
  unfold accumSeed
  refine foldl_invariant P _ ?_ _ d hd
  intro s t hs
  by_cases hm : t.1 ∈ history
  · simpa [hm] using hs
  · simpa [hm] using hstep s t.1 t.2 hm hs

theorem accumulateScores_invariant {V α : Type} [LinearOrderedField α] (simf : V → V → α)
    (article_ids : List Int) (embeddings : List V) (dV : V) (history : List Int)
    (P : List (Int × α) → Prop)
    (hstep : ∀ d aid s, aid ∉ history → P d → P (addScore d aid s))
    (hnil : P []) :
    P (accumulateScores simf article_ids embeddings dV history) := by
  unfold accumulateScores
  exact foldl_invariant P _
    (fun d seed hd => accumSeed_preserves simf article_ids embeddings dV history P hstep d seed hd)
    _ _ hnil

theorem accumulateScores_keys_not_history {V α : Type} [LinearOrderedField α]
    (simf : V → V → α) (article_ids : List Int) (embeddings : List V) (dV : V)
    (history : List Int) :
    ∀ x ∈ (accumulateScores simf article_ids embeddings dV history).map Prod.fst,
      x ∉ history := by
  refine accumulateScores_invariant simf article_ids embeddings dV history
    (fun d => ∀ x ∈ d.map Prod.fst, x ∉ history) ?_ (by simp)
  intro d aid s haid hd x hx
  rcases mem_addScore_fst hx with h | rfl
  · exact hd x h
  · exact haid

theorem accumulateScores_keys_nodup {V α : Type} [LinearOrderedField α]
    (simf : V → V → α) (article_ids : List Int) (embeddings : List V) (dV : V)
    (history : List Int) :
    ((accumulateScores simf article_ids embeddings dV history).map Prod.fst).Nodup := by
  refine accumulateScores_invariant simf article_ids embeddings dV history
    (fun d => (d.map Prod.fst).Nodup) ?_ (by simp)
  intro d aid s _ hd
  exact nodup_addScore hd aid s

theorem getSimilarArticlesWith_eq {V α : Type} [LinearOrderedField α] (simf : V → V → α)
    (ids : List Int) (em : List V) (dV : V) (a : Int) (k : ℕ) (hmem : a ∈ ids) :
    getSimilarArticlesWith simf ids em dV a k =
      ((((rangeMap (em.map (simf (em.getD (ids.indexOf a) dV))) 0).insertionSort
          ascIdx).reverse.drop 1).take k).map (fun p => (ids.getD p.1 0, p.2)) := by
  unfold getSimilarArticlesWith
  rw [if_pos hmem]

theorem getSimilarArticlesWith_length_le {V α : Type} [LinearOrderedField α]
    (simf : V → V → α) (ids : List Int) (em : List V) (dV : V) (a : Int) (k : ℕ) :
    (getSimilarArticlesWith simf ids em dV a k).length ≤ k := by
  by_cases hmem : a ∈ ids
  · rw [getSimilarArticlesWith_eq simf ids em dV a k hmem, List.length_map,
      List.length_take]
    exact min_le_left _ _
  · unfold getSimilarArticlesWith
    rw [if_neg hmem]
    exact Nat.zero_le k

theorem getSimilarArticlesWith_sorted {V α : Type} [LinearOrderedField α]
    (simf : V → V → α) (ids : List Int) (em : List V) (dV : V) (a : Int) (k : ℕ) :
    List.Pairwise (fun p q => q.2 ≤ p.2) (getSimilarArticlesWith simf ids em dV a k) := by
  by_cases hmem : a ∈ ids
  · rw [getSimilarArticlesWith_eq simf ids em dV a k hmem]
    rw [List.pairwise_map]
    have hsorted := List.sorted_insertionSort (ascIdx (α := α))
      (rangeMap (em.map (simf (em.getD (ids.indexOf a) dV))) 0)
    have hrev : List.Pairwise (fun x y => ascIdx y x)
        ((rangeMap (em.map (simf (em.getD (ids.indexOf a) dV))) 0).insertionSort
          ascIdx).reverse := by
      rw [List.pairwise_reverse]
      exact hsorted
    have hsub := List.Pairwise.sublist
      ((List.take_sublist k _).trans (List.drop_sublist 1 _)) hrev
    refine hsub.imp ?_
    intro p q hpq
    have hpq2 : q.2 < p.2 ∨ (q.2 = p.2 ∧ q.1 ≤ p.1) := hpq
    rcases hpq2 with h | ⟨h, _⟩
    · exact le_of_lt h
    · exact le_of_eq h
  · unfold getSimilarArticlesWith
    rw [if_neg hmem]
    exact List.Pairwise.nil

theorem argsort_tail_ne_max {α : Type} [LinearOrderedField α] {l : List α} {q : ℕ}
    (hq : q < l.length)
    (hmax : ∀ m, m < l.length → m ≠ q → l.getD m 0 < l.getD q 0) :
    ∀ r ∈ ((rangeMap l 0).insertionSort ascIdx).reverse.drop 1, r.1 ≠ q := by
  intro r hr
  have hperm := List.perm_insertionSort (ascIdx (α := α)) (rangeMap l 0)
  have hsorted := List.sorted_insertionSort (ascIdx (α := α)) (rangeMap l 0)
  have hnd : ((rangeMap l 0).insertionSort ascIdx).Nodup :=
    hperm.nodup_iff.mpr (nodup_rangeMap l 0)
  obtain ⟨h, t, hht⟩ : ∃ h t, ((rangeMap l 0).insertionSort ascIdx).reverse = h :: t := by
    cases hrev : ((rangeMap l 0).insertionSort ascIdx).reverse with
    | nil => rw [hrev] at hr; simp at hr
    | cons h t => exact ⟨h, t, rfl⟩
  rw [hht, List.drop_one, List.tail_cons] at hr
  have hmem_order : ∀ x ∈ (rangeMap l 0).insertionSort ascIdx,
      x.1 < l.length ∧ x.2 = l.getD x.1 0 := by
    intro x hx
    obtain ⟨x1, x2⟩ := x
    exact mem_rangeMap.mp (hperm.mem_iff.mp hx)
  have hrev_pair : List.Pairwise (fun x y => ascIdx y x) (h :: t) := by
    rw [← hht, List.pairwise_reverse]
    exact hsorted
  have hqmem : ((q : ℕ), l.getD q 0) ∈ h :: t := by
    rw [← hht, List.mem_reverse]
    exact hperm.mem_iff.mpr (mem_rangeMap.mpr ⟨hq, rfl⟩)
  have hhmem : h ∈ (rangeMap l 0).insertionSort ascIdx := by
    rw [← List.mem_reverse, hht]
    exact List.mem_cons_self h t
  obtain ⟨hhlt, hhval⟩ := hmem_order h hhmem
  have hheq : h = (q, l.getD q 0) := by
    by_cases hfst : h.1 = q
    · exact Prod.ext_iff.mpr ⟨hfst, by rw [hhval, hfst]⟩
    · have hqt : ((q : ℕ), l.getD q 0) ∈ t := by
        rcases List.mem_cons.mp hqmem with heq | ht
        · exfalso; apply hfst; rw [← heq]
        · exact ht
      have hrel : ascIdx ((q : ℕ), l.getD q 0) h :=
        (List.pairwise_cons.mp hrev_pair).1 _ hqt
      have hrel2 : l.getD q 0 < h.2 ∨ (l.getD q 0 = h.2 ∧ q ≤ h.1) := hrel
      have hlt := hmax h.1 hhlt hfst
      rw [hhval] at hrel2
      rcases hrel2 with hcase | ⟨hcase, _⟩
      · exact absurd hcase hlt.asymm
      · exact absurd hcase.symm (ne_of_lt hlt)
  intro hrq
  have hrmem : r ∈ (rangeMap l 0).insertionSort ascIdx := by
    rw [← List.mem_reverse, hht]
    exact List.mem_cons_of_mem h hr
  obtain ⟨hrlt, hrval⟩ := hmem_order r hrmem
  have hreq : r = h := by
    rw [hheq]
    exact Prod.ext_iff.mpr ⟨hrq, by rw [hrval, hrq]⟩
  have hndrev : (h :: t).Nodup := by
    rw [← hht]
    exact List.nodup_reverse.mpr hnd
  exact (List.nodup_cons.mp hndrev).1 (hreq ▸ hr)

theorem getSimilarArticlesWith_excludes {V α : Type} [LinearOrderedField α]
    (simf : V → V → α) (ids : List Int) (em : List V) (dV : V) (a : Int) (k : ℕ)
    (hnd : ids.Nodup) (hlen : ids.length = em.length) (hmem : a ∈ ids)
    (hmax : ∀ m, m < em.length → m ≠ ids.indexOf a →
      (em.map (simf (em.getD (ids.indexOf a) dV))).getD m 0 <
      (em.map (simf (em.getD (ids.indexOf a) dV))).getD (ids.indexOf a) 0) :
    ∀ p ∈ getSimilarArticlesWith simf ids em dV a k, p.1 ≠ a := by
  intro p hp
  rw [getSimilarArticlesWith_eq simf ids em dV a k hmem] at hp
  obtain ⟨r, hr, rfl⟩ := List.mem_map.mp hp
  have hq : ids.indexOf a < (em.map (simf (em.getD (ids.indexOf a) dV))).length := by
    rw [List.length_map, ← hlen]
    exact List.indexOf_lt_length.mpr hmem
  have hmax' : ∀ m, m < (em.map (simf (em.getD (ids.indexOf a) dV))).length →
      m ≠ ids.indexOf a →
      (em.map (simf (em.getD (ids.indexOf a) dV))).getD m 0 <
      (em.map (simf (em.getD (ids.indexOf a) dV))).getD (ids.indexOf a) 0 := by
    intro m hm hne
    exact hmax m (by rwa [List.length_map] at hm) hne
  have hrne := argsort_tail_ne_max hq hmax' r (List.mem_of_mem_take hr)
  have hrmem : r ∈ ((rangeMap (em.map (simf (em.getD (ids.indexOf a) dV))) 0).insertionSort
      ascIdx).reverse.drop 1 := List.mem_of_mem_take hr
  have hrorder : r ∈ (rangeMap (em.map (simf (em.getD (ids.indexOf a) dV))) 0).insertionSort
      ascIdx := by
    rw [← List.mem_reverse]
    exact List.mem_of_mem_drop hrmem
  have hperm := List.perm_insertionSort (ascIdx (α := α))
    (rangeMap (em.map (simf (em.getD (ids.indexOf a) dV))) 0)
  have hrstruct : r.1 < (em.map (simf (em.getD (ids.indexOf a) dV))).length ∧
      r.2 = (em.map (simf (em.getD (ids.indexOf a) dV))).getD r.1 0 := by
    obtain ⟨r1, r2⟩ := r
    exact mem_rangeMap.mp (hperm.mem_iff.mp hrorder)
  have hrlen := hrstruct.1
  have hr1 : r.1 < ids.length := by
    rw [hlen]
    rwa [List.length_map] at hrlen
  intro hcontra
  simp only at hcontra
  have hqlt : ids.indexOf a < ids.length := List.indexOf_lt_length.mpr hmem
  have hgd : ids.getD r.1 0 = ids[r.1] := List.getD_eq_getElem ids 0 hr1
  have hga : ids[ids.indexOf a] = a := List.getElem_indexOf hqlt
  have hinj := List.nodup_iff_injective_getElem.mp hnd
  have : (⟨r.1, hr1⟩ : Fin ids.length) = ⟨ids.indexOf a, hqlt⟩ := by
    apply hinj
    simp only [Fin.getElem_fin]
    rw [hga, ← hgd, hcontra]
  exact hrne (congrArg Fin.val this)

theorem getSimilarArticlesWith_mem_struct {V α : Type} [LinearOrderedField α]
    (simf : V → V → α) (ids : List Int) (em : List V) (dV : V) (a : Int) (k : ℕ)
    {p : Int × α} (hp : p ∈ getSimilarArticlesWith simf ids em dV a k) :
    ∃ i, i < em.length ∧
      p.2 = (em.map (simf (em.getD (ids.indexOf a) dV))).getD i 0 := by
  by_cases hmem : a ∈ ids
  · rw [getSimilarArticlesWith_eq simf ids em dV a k hmem] at hp
    obtain ⟨r, hr, rfl⟩ := List.mem_map.mp hp
    have hrorder : r ∈ (rangeMap (em.map (simf (em.getD (ids.indexOf a) dV))) 0).insertionSort
        ascIdx := by
      rw [← List.mem_reverse]
      exact List.mem_of_mem_drop (List.mem_of_mem_take hr)
    have hperm := List.perm_insertionSort (ascIdx (α := α))
      (rangeMap (em.map (simf (em.getD (ids.indexOf a) dV))) 0)
    have hrstruct := mem_rangeMap.mp (hperm.mem_iff.mp (show (r.1, r.2) ∈ _ from hrorder))
    have hrlen := hrstruct.1
    refine ⟨r.1, ?_, hrstruct.2⟩
    rwa [List.length_map] at hrlen
  · unfold getSimilarArticlesWith at hp
    rw [if_neg hmem] at hp
    simp at hp

theorem dotp_eq_sum (x : List ℝ) : ∀ y : List ℝ,
    dotp x y = ∑ i ∈ Finset.range (min x.length y.length), x.getD i 0 * y.getD i 0 := by
  induction x with
  | nil => intro y; simp [dotp]
  | cons a xs ih =>
    intro y
    cases y with
    | nil => simp [dotp]
    | cons b ys =>
      have hmin : min (xs.length + 1) (ys.length + 1) = min xs.length ys.length + 1 :=
        Nat.succ_min_succ _ _
      simp only [List.length_cons, hmin, Finset.sum_range_succ']
      have hstep : ∀ i ∈ Finset.range (min xs.length ys.length),
          (a :: xs).getD (i + 1) 0 * (b :: ys).getD (i + 1) 0 =
          xs.getD i 0 * ys.getD i 0 := by
        intro i _
        rfl
      rw [Finset.sum_congr rfl hstep]
      have hd : dotp (a :: xs) (b :: ys) = a * b + dotp xs ys := by
        simp [dotp]
      rw [hd, ih ys]
      have h0 : (a :: xs).getD 0 0 * (b :: ys).getD 0 0 = a * b := rfl
      rw [h0]
      ring

theorem dotp_self_nonneg (x : List ℝ) : 0 ≤ dotp x x := by
  rw [dotp_eq_sum]
  exact Finset.sum_nonneg (fun i _ => mul_self_nonneg _)

theorem sum_sq_le_dotp_self (x : List ℝ) (k : ℕ) (hk : k ≤ x.length) :
    ∑ i ∈ Finset.range k, x.getD i 0 ^ 2 ≤ dotp x x := by
  rw [dotp_eq_sum, min_self]
  calc ∑ i ∈ Finset.range k, x.getD i 0 ^ 2
      ≤ ∑ i ∈ Finset.range x.length, x.getD i 0 ^ 2 :=
        Finset.sum_le_sum_of_subset_of_nonneg (Finset.range_subset.mpr hk)
          (fun i _ _ => sq_nonneg _)
    _ = ∑ i ∈ Finset.range x.length, x.getD i 0 * x.getD i 0 :=
        Finset.sum_congr rfl (fun i _ => sq (x.getD i 0) ▸ rfl)

theorem dotp_le_sqrt (x y : List ℝ) :
    dotp x y ≤ Real.sqrt (dotp x x) * Real.sqrt (dotp y y) := by
  rw [dotp_eq_sum x y]
  refine (Real.sum_mul_le_sqrt_mul_sqrt _ _ _).trans ?_
  exact mul_le_mul
    (Real.sqrt_le_sqrt (sum_sq_le_dotp_self x _ (min_le_left _ _)))
    (Real.sqrt_le_sqrt (sum_sq_le_dotp_self y _ (min_le_right _ _)))
    (Real.sqrt_nonneg _) (Real.sqrt_nonneg _)

theorem dotp_neg_right (x : List ℝ) : ∀ y : List ℝ,
    dotp x (y.map (fun b => -b)) = -dotp x y := by
  induction x with
  | nil => intro y; simp [dotp]
  | cons a xs ih =>
    intro y
    cases y with
    | nil => simp [dotp]
    | cons b ys =>
      have h1 : dotp (a :: xs) ((b :: ys).map (fun v => -v)) =
          a * (-b) + dotp xs (ys.map (fun v => -v)) := by simp [dotp]
      have h2 : dotp (a :: xs) (b :: ys) = a * b + dotp xs ys := by simp [dotp]
      rw [h1, h2, ih ys]
      ring

theorem dotp_neg_self (y : List ℝ) :
    dotp (y.map (fun b => -b)) (y.map (fun b => -b)) = dotp y y := by
  induction y with
  | nil => simp [dotp]
  | cons b ys ih =>
    have h1 : dotp ((b :: ys).map (fun v => -v)) ((b :: ys).map (fun v => -v)) =
        (-b) * (-b) + dotp (ys.map (fun v => -v)) (ys.map (fun v => -v)) := by
      simp [dotp]
    have h2 : dotp (b :: ys) (b :: ys) = b * b + dotp ys ys := by simp [dotp]
    rw [h1, h2, ih]
    ring

theorem neg_sqrt_le_dotp (x y : List ℝ) :
    -(Real.sqrt (dotp x x) * Real.sqrt (dotp y y)) ≤ dotp x y := by
  have h := dotp_le_sqrt x (y.map (fun b => -b))
  rw [dotp_neg_right, dotp_neg_self] at h
  linarith

theorem cosine_similarity_bounds (x y : List ℝ) :
    -1 ≤ cosine_similarity x y ∧ cosine_similarity x y ≤ 1 := by
  unfold cosine_similarity rowNorm
  by_cases hx : Real.sqrt (dotp x x) = 0
  · have hxx : dotp x x = 0 :=
      le_antisymm (Real.sqrt_eq_zero'.mp hx) (dotp_self_nonneg x)
    have hub := dotp_le_sqrt x y
    have hlb := neg_sqrt_le_dotp x y
    rw [hxx, Real.sqrt_zero, zero_mul] at hub
    rw [hxx, Real.sqrt_zero, zero_mul, neg_zero] at hlb
    have h0 : dotp x y = 0 := le_antisymm hub hlb
    rw [if_pos hx, h0, zero_div]
    norm_num
  · by_cases hy : Real.sqrt (dotp y y) = 0
    · have hyy : dotp y y = 0 :=
        le_antisymm (Real.sqrt_eq_zero'.mp hy) (dotp_self_nonneg y)
      have hub := dotp_le_sqrt x y
      have hlb := neg_sqrt_le_dotp x y
      rw [hyy, Real.sqrt_zero, mul_zero] at hub
      rw [hyy, Real.sqrt_zero, mul_zero, neg_zero] at hlb
      have h0 : dotp x y = 0 := le_antisymm hub hlb
      rw [if_neg hx, if_pos hy, h0, zero_div]
      norm_num
    · have hxpos : 0 < Real.sqrt (dotp x x) :=
        (Real.sqrt_nonneg _).lt_of_ne (Ne.symm hx)
      have hypos : 0 < Real.sqrt (dotp y y) :=
        (Real.sqrt_nonneg _).lt_of_ne (Ne.symm hy)
      rw [if_neg hx, if_neg hy]
      constructor
      · rw [le_div_iff (mul_pos hxpos hypos)]
        linarith [neg_sqrt_le_dotp x y]
      · rw [div_le_one (mul_pos hxpos hypos)]
        exact dotp_le_sqrt x y

theorem getArticleInfo_article_id (metadata : List ArticleRow) (aid : Int) :
    (getArticleInfo metadata aid).article_id = aid := by
  unfold getArticleInfo
  cases metadata.find? (fun r => decide (r.article_id = aid)) <;> rfl

theorem fnGetArticleInfo_article_id (metadata : List ArticleRow) (aid : Int) :
    (fnGetArticleInfo metadata aid).article_id = aid := by
  unfold fnGetArticleInfo
  cases metadata.find? (fun r => decide (r.article_id = aid)) <;> rfl

theorem withScore_article_id {α : Type} (info : ArticleInfo) (s : α) :
    (info.withScore s).article_id = info.article_id := rfl

theorem withScore_score {α : Type} (info : ArticleInfo) (s : α) :
    (info.withScore s).recommendation_score = s := rfl

theorem rangeMap_map_snd_fun {β γ : Type} (l : List β) (d : β) (f : β → γ) :
    (rangeMap l d).map (fun p => f p.2) = l.map f := by
  have h : (rangeMap l d).map (fun p => f p.2) = ((rangeMap l d).map Prod.snd).map f := by
    rw [List.map_map]; rfl
  rw [h, map_snd_rangeMap]

theorem rangeMap_map_fst_fun {β γ : Type} (l : List β) (d : β) (g : ℕ → γ) :
    (rangeMap l d).map (fun p => g p.1) = (List.range l.length).map g := by
  unfold rangeMap
  rw [List.map_map]
  rfl

theorem rangeMap_pairwise_fst_lt {β : Type} (l : List β) (d : β) :
    List.Pairwise (fun p q => p.1 < q.1) (rangeMap l d) := by
  unfold rangeMap
  rw [List.pairwise_map]
  exact List.pairwise_lt_range l.length

theorem recommendForUserWith_fallback {V α : Type} [LinearOrderedField α]
    (simf : V → V → α) (ids : List Int) (em : List V) (dV : V)
    (metadata : List ArticleRow) (clicks : List Click) (u : Int) (n : ℕ)
    (hhist : get_user_history clicks u = []) :
    recommendForUserWith simf ids em dV metadata clicks u n =
      getPopularArticles metadata clicks n := by
  unfold recommendForUserWith
  rw [if_pos hhist]

theorem recommendForUserWith_main {V α : Type} [LinearOrderedField α]
    (simf : V → V → α) (ids : List Int) (em : List V) (dV : V)
    (metadata : List ArticleRow) (clicks : List Click) (u : Int) (n : ℕ)
    (hhist : get_user_history clicks u ≠ []) :
    recommendForUserWith simf ids em dV metadata clicks u n =
      ((sortDescBy (fun p => p.2)
          (accumulateScores simf ids em dV (get_user_history clicks u)) (0, 0)).take n).map
        (fun p => (getArticleInfo metadata p.1).withScore p.2) := by
  unfold recommendForUserWith
  rw [if_neg hhist]

/-- C7: constructing the Embedding Store from each of the three supported
source shapes — identifier-to-vector mapping, (identifier list, matrix)
pair, and bare matrix with identifiers assigned positionally from the
catalog — for the same logical dataset yields an identical vector_of
result for every item identifier. -/
theorem c7_load_normalization {V : Type} (d : List (Int × V)) (ids : List Int)
    (mat : List V) (catalog_ids : List Int)
    (hdict : d = ids.zip mat) (hlen : ids.length = mat.length)
    (hcat : catalog_ids.take mat.length = ids) :
    ∀ a : Int, vector_of (loadDict d) a = vector_of (loadPair ids mat) a ∧
      vector_of (loadMatrix mat catalog_ids) a = vector_of (loadPair ids mat) a := by
  intro a
  have h1 : loadDict d = (ids, mat) := by
    rw [hdict]
    unfold loadDict
    rw [List.map_fst_zip _ _ (le_of_eq hlen), List.map_snd_zip _ _ (le_of_eq hlen.symm)]
  have h2 : loadMatrix mat catalog_ids = (ids, mat) := by
    unfold loadMatrix
    rw [hcat]
  rw [h1, h2]
  exact ⟨rfl, rfl⟩

theorem c7_witness :
    ([((1 : Int), [(1 : ℚ), 2]), (2, [3, 4])] =
      [(1 : Int), 2].zip [[(1 : ℚ), 2], [3, 4]]) ∧
    (vector_of (loadDict [((1 : Int), [(1 : ℚ), 2]), (2, [3, 4])]) 2 =
      vector_of (loadPair [(1 : Int), 2] [[(1 : ℚ), 2], [3, 4]]) 2 ∧
     vector_of (loadMatrix [[(1 : ℚ), 2], [3, 4]] [(1 : Int), 2, 9]) 2 =
      vector_of (loadPair [(1 : Int), 2] [[(1 : ℚ), 2], [3, 4]]) 2) :=
  ⟨by decide,
   c7_load_normalization [((1 : Int), [(1 : ℚ), 2]), (2, [3, 4])] [(1 : Int), 2]
     [[(1 : ℚ), 2], [3, 4]] [(1 : Int), 2, 9] (by decide) (by decide) (by decide) 2⟩

/-- C8: an item identifier absent from the Embedding Store yields the empty
sequence from the similarity lookup (the ValueError is caught, never
propagated), and such an unknown seed leaves the candidate accumulation of
recommend_for_user unchanged, so the remaining history items are still
processed. -/
theorem c8_unknown_item_soft_failure {V α : Type} [LinearOrderedField α]
    (simf : V → V → α) (ids : List Int) (em : List V) (dV : V) (a : Int) (k : ℕ)
    (hmem : a ∉ ids) :
    getSimilarArticlesWith simf ids em dV a k = [] ∧
    ∀ (history : List Int) (dict : List (Int × α)),
      accumSeed simf ids em dV history dict a = dict := by
  have h20 : getSimilarArticlesWith simf ids em dV a 20 = [] := by
    unfold getSimilarArticlesWith
    rw [if_neg hmem]
  refine ⟨?_, ?_⟩
  · unfold getSimilarArticlesWith
    rw [if_neg hmem]
  · intro history dict
    unfold accumSeed
    rw [h20]
    rfl

theorem c8_witness :
    ((99 : Int) ∉ [(10 : Int), 20]) ∧
    getSimilarArticlesWith (fun _ _ => (0 : ℚ)) [(10 : Int), 20] [(), ()] () 99 7 = [] ∧
    accumSeed (fun _ _ => (0 : ℚ)) [(10 : Int), 20] [(), ()] () [(3 : Int)]
      [((5 : Int), (1 : ℚ))] 99 = [((5 : Int), (1 : ℚ))] :=
  ⟨by decide,
   (c8_unknown_item_soft_failure (fun _ _ => (0 : ℚ)) [(10 : Int), 20] [(), ()] () 99 7
     (by decide)).1,
   (c8_unknown_item_soft_failure (fun _ _ => (0 : ℚ)) [(10 : Int), 20] [(), ()] () 99 7
     (by decide)).2 [(3 : Int)] [((5 : Int), (1 : ℚ))]⟩

theorem getArticleInfoCells_found (metadata : List ArticleRowCells) (aid : Int)
    (row : ArticleRowCells)
    (hrow : metadata.find? (fun r => decide (r.article_id = aid)) = some row) :
    getArticleInfoCells metadata aid =
      match intOfCell row.words_count 0 with
      | Except.error e => Except.error e
      | Except.ok w =>
        Except.ok ⟨aid,
          match row.title with
          | Cell.absent => "Article " ++ toString aid
          | Cell.nan => "Article " ++ toString aid
          | Cell.val s => if s = "" then "Article " ++ toString aid else s,
          match row.category_id with
          | Cell.absent => CategoryValue.na
          | Cell.nan => CategoryValue.nan
          | Cell.val c => CategoryValue.cat c,
          w⟩ := by
  unfold getArticleInfoCells
  rw [hrow]

theorem fnGetArticleInfoCells_found (metadata : List ArticleRowCells) (aid : Int)
    (row : ArticleRowCells)
    (hrow : metadata.find? (fun r => decide (r.article_id = aid)) = some row) :
    fnGetArticleInfoCells metadata aid =
      match intOfCell row.category_id 0 with
      | Except.error e => Except.error e
      | Except.ok c =>
        match intOfCell row.words_count 0 with
        | Except.error e => Except.error e
        | Except.ok w =>
          Except.ok ⟨aid, "Article " ++ toString aid, CategoryValue.cat c, w⟩ := by
  unfold fnGetArticleInfoCells
  rw [hrow]

theorem getArticleInfoCells_agrees (metadata : List ArticleRowCells) (aid : Int)
    (hnan : ∀ r ∈ metadata, r.noNaN) :
    (getArticleInfoCells metadata aid).map
        (fun info => (⟨info.article_id, info.title, renderCategory info.category,
          info.words_count⟩ : ArticleInfo)) =
      Except.ok (getArticleInfo (metadata.map projRow) aid) := by
  have hfind : (metadata.map projRow).find? (fun r => decide (r.article_id = aid)) =
      (metadata.find? (fun r => decide (r.article_id = aid))).map projRow := by
    rw [List.find?_map]
    rfl
  cases hf : metadata.find? (fun r => decide (r.article_id = aid)) with
  | none =>
    unfold getArticleInfoCells getArticleInfo
    rw [hf, hfind, hf]
    rfl
  | some row =>
    obtain ⟨ht, hc, hw⟩ := hnan row (List.mem_of_find?_eq_some hf)
    rw [getArticleInfoCells_found metadata aid row hf]
    unfold getArticleInfo
    rw [hfind, hf]
    simp only [Option.map]
    obtain ⟨rid, rtitle, rcat, rwords⟩ := row
    cases rwords with
    | nan => exact absurd rfl hw
    | absent =>
      cases rtitle with
      | nan => exact absurd rfl ht
      | absent =>
        cases rcat with
        | nan => exact absurd rfl hc
        | absent => rfl
        | val c => rfl
      | val s =>
        cases rcat with
        | nan => exact absurd rfl hc
        | absent => rfl
        | val c => rfl
    | val w =>
      cases rtitle with
      | nan => exact absurd rfl ht
      | absent =>
        cases rcat with
        | nan => exact absurd rfl hc
        | absent => rfl
        | val c => rfl
      | val s =>
        cases rcat with
        | nan => exact absurd rfl hc
        | absent => rfl
        | val c => rfl

/-- C6 (counterexample): the catalog lookup is not exception-free and its
defaults are not those the claim states.  With a present-but-empty (NaN)
words_count cell, _get_article_info evaluates int(NaN) and raises
ValueError (first conjunct); an empty category cell is returned as NaN,
not as a sentinel (second); the unknown-identifier sentinel it does use
renders as N/A, not "unknown" (third and fourth); and the Azure Function
variant defaults a known row's absent category column to the integer 0
(fifth). -/
theorem c6_counterexample :
    getArticleInfoCells [⟨5, Cell.absent, Cell.absent, Cell.nan⟩] 5 =
      Except.error "cannot convert float NaN to integer" ∧
    getArticleInfoCells [⟨6, Cell.absent, Cell.nan, Cell.absent⟩] 6 =
      Except.ok ⟨6, "Article 6", CategoryValue.nan, 0⟩ ∧
    getArticleInfoCells ([] : List ArticleRowCells) 7 =
      Except.ok ⟨7, "Article 7", CategoryValue.na, 0⟩ ∧
    renderCategory CategoryValue.na ≠ "unknown" ∧
    fnGetArticleInfoCells [⟨8, Cell.absent, Cell.absent, Cell.absent⟩] 8 =
      Except.ok ⟨8, "Article 8", CategoryValue.cat 0, 0⟩ :=
  ⟨rfl, rfl, rfl, by decide, rfl⟩

/-- C6 (amended): the catalog lookup is deterministic, with one error
path.  The engine lookup raises (ValueError from int) exactly when the
found row's words_count cell is present but NaN; otherwise an unknown
identifier yields the synthetic record (title Article id, category
sentinel N/A — not "unknown" — and word count 0), and a found row gets
the title defaulted on an absent, NaN or empty cell, the category
sentinel N/A only for an absent column with a NaN cell passed through,
and word count defaulted to 0 only for an absent column.  The Azure
Function variant returns the same unknown-identifier record, but on a
found row it always synthesizes the title, raises when the category_id
or the words_count cell is NaN (category first), and defaults an absent
category column to the integer 0. -/
theorem c6_amended_defaults (metadata : List ArticleRowCells) (aid : Int) :
    (metadata.find? (fun r => decide (r.article_id = aid)) = none →
      getArticleInfoCells metadata aid =
        Except.ok ⟨aid, "Article " ++ toString aid, CategoryValue.na, 0⟩ ∧
      fnGetArticleInfoCells metadata aid =
        Except.ok ⟨aid, "Article " ++ toString aid, CategoryValue.na, 0⟩) ∧
    ∀ row, metadata.find? (fun r => decide (r.article_id = aid)) = some row →
      (row.words_count = Cell.nan →
        getArticleInfoCells metadata aid =
          Except.error "cannot convert float NaN to integer") ∧
      (row.words_count ≠ Cell.nan →
        getArticleInfoCells metadata aid =
          Except.ok ⟨aid,
            match row.title with
            | Cell.absent => "Article " ++ toString aid
            | Cell.nan => "Article " ++ toString aid
            | Cell.val s => if s = "" then "Article " ++ toString aid else s,
            match row.category_id with
            | Cell.absent => CategoryValue.na
            | Cell.nan => CategoryValue.nan
            | Cell.val c => CategoryValue.cat c,
            match row.words_count with
            | Cell.absent => 0
            | Cell.nan => 0
            | Cell.val w => w⟩) ∧
      (row.category_id = Cell.nan →
        fnGetArticleInfoCells metadata aid =
          Except.error "cannot convert float NaN to integer") ∧
      (row.category_id ≠ Cell.nan → row.words_count = Cell.nan →
        fnGetArticleInfoCells metadata aid =
          Except.error "cannot convert float NaN to integer") ∧
      (row.category_id ≠ Cell.nan → row.words_count ≠ Cell.nan →
        fnGetArticleInfoCells metadata aid =
          Except.ok ⟨aid, "Article " ++ toString aid,
            match row.category_id with
            | Cell.absent => CategoryValue.cat 0
            | Cell.nan => CategoryValue.cat 0
            | Cell.val c => CategoryValue.cat c,
            match row.words_count with
            | Cell.absent => 0
            | Cell.nan => 0
            | Cell.val w => w⟩) := by
  constructor
  · intro h
    constructor
    · unfold getArticleInfoCells
      rw [h]
    · unfold fnGetArticleInfoCells
      rw [h]
  · intro row hrow
    refine ⟨?_, ?_, ?_, ?_, ?_⟩
    · intro hw
      rw [getArticleInfoCells_found metadata aid row hrow, hw]
      rfl
    · intro hw
      rw [getArticleInfoCells_found metadata aid row hrow]
      cases hwc : row.words_count with
      | nan => exact absurd hwc hw
      | absent => rfl
      | val w => rfl
    · intro hc
      rw [fnGetArticleInfoCells_found metadata aid row hrow, hc]
      rfl
    · intro hc hw
      rw [fnGetArticleInfoCells_found metadata aid row hrow, hw]
      cases hcc : row.category_id with
      | nan => exact absurd hcc hc
      | absent => rfl
      | val c => rfl
    · intro hc hw
      rw [fnGetArticleInfoCells_found metadata aid row hrow]
      cases hcc : row.category_id with
      | nan => exact absurd hcc hc
      | absent =>
        cases hwc : row.words_count with
        | nan => exact absurd hwc hw
        | absent => rfl
        | val w => rfl
      | val c =>
        cases hwc : row.words_count with
        | nan => exact absurd hwc hw
        | absent => rfl
        | val w => rfl

theorem c6_witness :
    (([] : List ArticleRowCells).find? (fun r => decide (r.article_id = 7)) = none) ∧
    getArticleInfoCells ([] : List ArticleRowCells) 7 =
      Except.ok ⟨7, "Article " ++ toString (7 : Int), CategoryValue.na, 0⟩ ∧
    fnGetArticleInfoCells ([] : List ArticleRowCells) 7 =
      Except.ok ⟨7, "Article " ++ toString (7 : Int), CategoryValue.na, 0⟩ ∧
    getArticleInfoCells [⟨5, Cell.absent, Cell.absent, Cell.nan⟩] 5 =
      Except.error "cannot convert float NaN to integer" ∧
    getArticleInfoCells [⟨9, Cell.val "T", Cell.val 3, Cell.val 42⟩] 9 =
      Except.ok ⟨9, "T", CategoryValue.cat 3, 42⟩ ∧
    fnGetArticleInfoCells [⟨4, Cell.absent, Cell.nan, Cell.absent⟩] 4 =
      Except.error "cannot convert float NaN to integer" ∧
    fnGetArticleInfoCells [⟨9, Cell.val "T", Cell.val 3, Cell.val 42⟩] 9 =
      Except.ok ⟨9, "Article " ++ toString (9 : Int), CategoryValue.cat 3, 42⟩ := by
  refine ⟨rfl, ?_, ?_, ?_, ?_, ?_, ?_⟩
  · exact ((c6_amended_defaults ([] : List ArticleRowCells) 7).1 rfl).1
  · exact ((c6_amended_defaults ([] : List ArticleRowCells) 7).1 rfl).2
  · exact ((c6_amended_defaults [⟨5, Cell.absent, Cell.absent, Cell.nan⟩] 5).2
      ⟨5, Cell.absent, Cell.absent, Cell.nan⟩ (by decide)).1 rfl
  · exact ((c6_amended_defaults [⟨9, Cell.val "T", Cell.val 3, Cell.val 42⟩] 9).2
      ⟨9, Cell.val "T", Cell.val 3, Cell.val 42⟩ (by decide)).2.1 (by decide)
  · exact ((c6_amended_defaults [⟨4, Cell.absent, Cell.nan, Cell.absent⟩] 4).2
      ⟨4, Cell.absent, Cell.nan, Cell.absent⟩ (by decide)).2.2.1 rfl
  · exact ((c6_amended_defaults [⟨9, Cell.val "T", Cell.val 3, Cell.val 42⟩] 9).2
      ⟨9, Cell.val "T", Cell.val 3, Cell.val 42⟩ (by decide)).2.2.2.2
      (by decide) (by decide)

/-- C9: every similarity score attached to a neighbor returned by
get_similar_articles lies in the closed interval from -1 to 1 (cosine
similarity: dot product over the product of the vector magnitudes). -/
theorem c9_scores_bounded (ids : List Int) (em : List (List ℝ)) (a : Int) (k : ℕ) :
    ∀ p ∈ get_similar_articles ids em a k, -1 ≤ p.2 ∧ p.2 ≤ 1 := by
  intro p hp
  have hp2 : p ∈ getSimilarArticlesWith cosine_similarity ids em [] a k := hp
  obtain ⟨i, hi, hval⟩ :=
    getSimilarArticlesWith_mem_struct cosine_similarity ids em [] a k hp2
  have hlen : i < (em.map (cosine_similarity (em.getD (ids.indexOf a) []))).length := by
    rwa [List.length_map]
  rw [hval, List.getD_eq_getElem _ _ hlen, List.getElem_map]
  exact cosine_similarity_bounds _ _

/-- C2: for every user whose history is non-empty, no entry returned by
recommend_for_user carries an article identifier present anywhere in the
user's full (uncapped) history, regardless of which seed item surfaced
it. -/
theorem c2_no_rerecommendation {V α : Type} [LinearOrderedField α] (simf : V → V → α)
    (ids : List Int) (em : List V) (dV : V) (metadata : List ArticleRow)
    (clicks : List Click) (u : Int) (n : ℕ)
    (hhist : get_user_history clicks u ≠ []) :
    ∀ e ∈ recommendForUserWith simf ids em dV metadata clicks u n,
      e.article_id ∉ get_user_history clicks u := by
  intro e he
  rw [recommendForUserWith_main simf ids em dV metadata clicks u n hhist] at he
  obtain ⟨p, hp, rfl⟩ := List.mem_map.mp he
  rw [withScore_article_id, getArticleInfo_article_id]
  have hp1 : p ∈ sortDescBy (fun p => p.2)
      (accumulateScores simf ids em dV (get_user_history clicks u)) (0, 0) :=
    List.mem_of_mem_take hp
  have hp2 : p ∈ accumulateScores simf ids em dV (get_user_history clicks u) :=
    (sortDescBy_perm _ _ _).mem_iff.mp hp1
  exact accumulateScores_keys_not_history simf ids em dV _ p.1
    (List.mem_map_of_mem Prod.fst hp2)

theorem c2_witness :
    (get_user_history [((1 : Int), (10 : Int))] 1 ≠ []) ∧
    (⟨20, "Article 20", "N/A", 0, (0 : ℚ)⟩ : Entry ℚ) ∈
      recommendForUserWith (fun _ _ => (0 : ℚ)) [(10 : Int), 20, 30] [(), (), ()] ()
        [] [((1 : Int), (10 : Int))] 1 5 ∧
    (20 : Int) ∉ get_user_history [((1 : Int), (10 : Int))] 1 := by
  refine ⟨by decide, by decide, ?_⟩
  exact c2_no_rerecommendation (fun _ _ => (0 : ℚ)) [(10 : Int), 20, 30] [(), (), ()] ()
    [] [((1 : Int), (10 : Int))] 1 5 (by decide)
    ⟨20, "Article 20", "N/A", 0, (0 : ℚ)⟩ (by decide)

/-- C10: a non-empty history whose candidate accumulation produces no
qualifying candidate yields the empty recommendation list; the
popularity/catalog fallback is reached only on an empty history, never on
an empty candidate set. -/
theorem c10_empty_candidates {V α : Type} [LinearOrderedField α] (simf : V → V → α)
    (ids : List Int) (em : List V) (dV : V) (metadata : List ArticleRow)
    (clicks : List Click) (u : Int) (n : ℕ)
    (hhist : get_user_history clicks u ≠ [])
    (hacc : accumulateScores simf ids em dV (get_user_history clicks u) = []) :
    recommendForUserWith simf ids em dV metadata clicks u n = [] := by
  rw [recommendForUserWith_main simf ids em dV metadata clicks u n hhist, hacc]
  have h0 : sortDescBy (fun p : Int × α => p.2) [] (0, 0) = [] := rfl
  rw [h0, List.take_nil, List.map_nil]

theorem c10_witness :
    (get_user_history [((1 : Int), (99 : Int))] 1 ≠ []) ∧
    (accumulateScores (fun _ _ => (0 : ℚ)) [(10 : Int)] [()] ()
      (get_user_history [((1 : Int), (99 : Int))] 1) = []) ∧
    recommendForUserWith (fun _ _ => (0 : ℚ)) [(10 : Int)] [()] ()
      [] [((1 : Int), (99 : Int))] 1 3 = [] :=
  ⟨by decide, by decide,
   c10_empty_candidates (fun _ _ => (0 : ℚ)) [(10 : Int)] [()] () []
     [((1 : Int), (99 : Int))] 1 3 (by decide) (by decide)⟩

/-- C5: when the interaction log is empty recommend_for_user returns, for
every user, the first top_n catalog items in catalog order with synthetic
scores top_n, top_n - 1, …. -/
theorem c5_empty_log_fallback {V α : Type} [LinearOrderedField α] (simf : V → V → α)
    (ids : List Int) (em : List V) (dV : V) (metadata : List ArticleRow)
    (clicks : List Click) (u : Int) (n : ℕ) (hclicks : clicks = []) :
    (recommendForUserWith simf ids em dV metadata clicks u n).map Entry.article_id =
      (metadata.take n).map ArticleRow.article_id ∧
    (recommendForUserWith simf ids em dV metadata clicks u n).map
        Entry.recommendation_score =
      (List.range (metadata.take n).length).map (fun i => ((n - i : ℕ) : α)) := by
  subst hclicks
  have hhist : get_user_history [] u = [] := rfl
  rw [recommendForUserWith_fallback simf ids em dV metadata [] u n hhist]
  unfold getPopularArticles
  rw [if_pos rfl]
  unfold catalogFallback
  constructor
  · rw [List.map_map]
    exact rangeMap_map_snd_fun (metadata.take n) ⟨0, none, none, none⟩
      ArticleRow.article_id
  · rw [List.map_map]
    exact rangeMap_map_fst_fun (metadata.take n) ⟨0, none, none, none⟩
      (fun i => ((n - i : ℕ) : α))

theorem c5_witness :
    (recommendForUserWith (fun _ _ => (0 : ℚ)) [] ([] : List Unit) ()
        [({ article_id := 10 } : ArticleRow), { article_id := 20 }, { article_id := 30 },
         { article_id := 40 }, { article_id := 50 }] [] 7 3).map Entry.article_id =
      [(10 : Int), 20, 30] ∧
    (recommendForUserWith (fun _ _ => (0 : ℚ)) [] ([] : List Unit) ()
        [({ article_id := 10 } : ArticleRow), { article_id := 20 }, { article_id := 30 },
         { article_id := 40 }, { article_id := 50 }] [] 7 3).map Entry.recommendation_score =
      [(3 : ℚ), 2, 1] := by
  have h := c5_empty_log_fallback (fun _ _ => (0 : ℚ)) [] ([] : List Unit) ()
    [({ article_id := 10 } : ArticleRow), { article_id := 20 }, { article_id := 30 },
     { article_id := 40 }, { article_id := 50 }] [] 7 3 rfl
  exact ⟨h.1.trans (by decide), h.2.trans (by decide)⟩

theorem catalogFallback_shape {α : Type} [LinearOrderedField α]
    (metadata : List ArticleRow) (n : ℕ)
    (hmeta : (metadata.map ArticleRow.article_id).Nodup) :
    (catalogFallback (α := α) metadata n).length ≤ n ∧
    ((catalogFallback (α := α) metadata n).map Entry.article_id).Nodup ∧
    List.Pairwise (fun a b => b.recommendation_score ≤ a.recommendation_score)
      (catalogFallback (α := α) metadata n) := by
  refine ⟨?_, ?_, ?_⟩
  · unfold catalogFallback rangeMap
    rw [List.length_map, List.length_map, List.length_range, List.length_take]
    exact min_le_left _ _
  · have heq : (catalogFallback (α := α) metadata n).map Entry.article_id =
        (metadata.take n).map ArticleRow.article_id := by
      unfold catalogFallback
      rw [List.map_map]
      exact rangeMap_map_snd_fun (metadata.take n) ⟨0, none, none, none⟩
        ArticleRow.article_id
    rw [heq]
    exact List.Nodup.sublist ((List.take_sublist n metadata).map ArticleRow.article_id)
      hmeta
  · unfold catalogFallback
    rw [List.pairwise_map]
    refine (rangeMap_pairwise_fst_lt _ _).imp ?_
    intro p q h
    exact Nat.cast_le.mpr (Nat.sub_le_sub_left (le_of_lt h) n)

theorem take_sortDescBy_entry_shape {α γ : Type} [LinearOrderedField α] [LinearOrder γ]
    [Zero γ] (L : List (Int × γ)) (metadata : List ArticleRow) (n : ℕ) (sc : γ → α)
    (hsc : Monotone sc) (hkeys : (L.map Prod.fst).Nodup) :
    ((((sortDescBy (fun p => p.2) L (0, 0)).take n).map
        (fun p => (getArticleInfo metadata p.1).withScore (sc p.2)))).length ≤ n ∧
    (((((sortDescBy (fun p => p.2) L (0, 0)).take n).map
        (fun p => (getArticleInfo metadata p.1).withScore (sc p.2)))).map
        Entry.article_id).Nodup ∧
    List.Pairwise (fun a b => b.recommendation_score ≤ a.recommendation_score)
      ((((sortDescBy (fun p => p.2) L (0, 0)).take n).map
        (fun p => (getArticleInfo metadata p.1).withScore (sc p.2)))) := by
  refine ⟨?_, ?_, ?_⟩
  · rw [List.length_map, List.length_take]
    exact min_le_left _ _
  · have heq : ((((sortDescBy (fun p => p.2) L (0, 0)).take n).map
        (fun p => (getArticleInfo metadata p.1).withScore (sc p.2)))).map
        Entry.article_id =
        ((sortDescBy (fun p => p.2) L (0, 0)).take n).map Prod.fst := by
      rw [List.map_map]
      refine List.map_congr_left ?_
      intro p _
      show ((getArticleInfo metadata p.1).withScore (sc p.2)).article_id = p.1
      rw [withScore_article_id, getArticleInfo_article_id]
    rw [heq]
    refine List.Nodup.sublist ((List.take_sublist n _).map Prod.fst) ?_
    exact ((sortDescBy_perm (fun p => p.2) L (0, 0)).map Prod.fst).nodup_iff.mpr hkeys
  · rw [List.pairwise_map]
    have hs := List.Pairwise.sublist (List.take_sublist n _)
      (sortDescBy_sorted (fun p => p.2) L (0, 0))
    refine hs.imp ?_
    intro p q h
    exact hsc h

/-- C3: every result list of recommend_for_user has length at most top_n,
pairwise-distinct article identifiers, and is sorted by
recommendation_score descending (assuming the data-model invariant that
catalog identifiers are unique, needed only for the empty-log fallback). -/
theorem c3_output_shape {V α : Type} [LinearOrderedField α] (simf : V → V → α)
    (ids : List Int) (em : List V) (dV : V) (metadata : List ArticleRow)
    (clicks : List Click) (u : Int) (n : ℕ)
    (hmeta : (metadata.map ArticleRow.article_id).Nodup) :
    (recommendForUserWith simf ids em dV metadata clicks u n).length ≤ n ∧
    ((recommendForUserWith simf ids em dV metadata clicks u n).map
        Entry.article_id).Nodup ∧
    List.Pairwise (fun a b => b.recommendation_score ≤ a.recommendation_score)
      (recommendForUserWith simf ids em dV metadata clicks u n) := by
  by_cases hhist : get_user_history clicks u = []
  · rw [recommendForUserWith_fallback simf ids em dV metadata clicks u n hhist]
    unfold getPopularArticles
    by_cases hclicks : clicks = []
    · rw [if_pos hclicks]
      exact catalogFallback_shape metadata n hmeta
    · rw [if_neg hclicks]
      unfold valueCounts
      refine take_sortDescBy_entry_shape _ metadata n (fun c : ℕ => (c : α)) ?_ ?_
      · intro a b h
        exact Nat.cast_le.mpr h
      · rw [List.map_map]
        have hid : (Prod.fst ∘ fun i : Int =>
            (i, (clicks.map (fun c => c.2)).count i)) = id := rfl
        rw [hid, List.map_id]
        exact nodup_uniqueKeepFirst _
  · rw [recommendForUserWith_main simf ids em dV metadata clicks u n hhist]
    refine take_sortDescBy_entry_shape _ metadata n (fun s : α => s) ?_ ?_
    · intro a b h
      exact h
    · exact accumulateScores_keys_nodup simf ids em dV _

theorem c3_witness :
    (([({ article_id := 10 } : ArticleRow)]).map ArticleRow.article_id).Nodup ∧
    ((recommendForUserWith (fun _ _ => (0 : ℚ)) [(10 : Int), 20, 30] [(), (), ()] ()
        [({ article_id := 10 } : ArticleRow)] [((1 : Int), (10 : Int))] 1 1).length ≤ 1 ∧
     ((recommendForUserWith (fun _ _ => (0 : ℚ)) [(10 : Int), 20, 30] [(), (), ()] ()
        [({ article_id := 10 } : ArticleRow)] [((1 : Int), (10 : Int))] 1 1).map
        Entry.article_id).Nodup ∧
     List.Pairwise (fun a b => b.recommendation_score ≤ a.recommendation_score)
       (recommendForUserWith (fun _ _ => (0 : ℚ)) [(10 : Int), 20, 30] [(), (), ()] ()
        [({ article_id := 10 } : ArticleRow)] [((1 : Int), (10 : Int))] 1 1)) :=
  ⟨by decide,
   c3_output_shape (fun _ _ => (0 : ℚ)) [(10 : Int), 20, 30] [(), (), ()] ()
     [({ article_id := 10 } : ArticleRow)] [((1 : Int), (10 : Int))] 1 1 (by decide)⟩

theorem valueCounts_mem {clicks : List Click} {p : Int × ℕ} (hp : p ∈ valueCounts clicks) :
    p.2 = (clicks.map (fun c => c.2)).count p.1 := by
  unfold valueCounts at hp
  have hp2 := (sortDescBy_perm _ _ _).mem_iff.mp hp
  obtain ⟨i, _, heq⟩ := List.mem_map.mp hp2
  rw [← heq]

/-- C4 (amended, engine): for a user with empty history while the click log
is non-empty, ContentRecommender.recommend_for_user returns at most top_n
entries, each scored with exactly its item's global interaction count,
sorted by count descending, and every clicked item left out of the result
has a count no greater than that of any returned item.  The original claim
also covered the Azure Function variant, which instead ignores the counts
(see the counterexample). -/
theorem c4_engine_popularity_fallback {V α : Type} [LinearOrderedField α]
    (simf : V → V → α) (ids : List Int) (em : List V) (dV : V)
    (metadata : List ArticleRow) (clicks : List Click) (u : Int) (n : ℕ)
    (hhist : get_user_history clicks u = []) (hclicks : clicks ≠ []) :
    (recommendForUserWith simf ids em dV metadata clicks u n).length ≤ n ∧
    (∀ e ∈ recommendForUserWith simf ids em dV metadata clicks u n,
      e.recommendation_score =
        (((clicks.map (fun c => c.2)).count e.article_id : ℕ) : α)) ∧
    List.Pairwise (fun a b => b.recommendation_score ≤ a.recommendation_score)
      (recommendForUserWith simf ids em dV metadata clicks u n) ∧
    ∀ e ∈ recommendForUserWith simf ids em dV metadata clicks u n,
      ∀ j ∈ clicks.map (fun c => c.2),
        j ∉ (recommendForUserWith simf ids em dV metadata clicks u n).map
          Entry.article_id →
        (clicks.map (fun c => c.2)).count j ≤
          (clicks.map (fun c => c.2)).count e.article_id := by
  have hkeys : (((uniqueKeepFirst (clicks.map (fun c => c.2))).map
      (fun i => (i, (clicks.map (fun c => c.2)).count i))).map Prod.fst).Nodup := by
    rw [List.map_map]
    have hid : (Prod.fst ∘ fun i : Int =>
        (i, (clicks.map (fun c => c.2)).count i)) = id := rfl
    rw [hid, List.map_id]
    exact nodup_uniqueKeepFirst _
  have hshape := take_sortDescBy_entry_shape
    ((uniqueKeepFirst (clicks.map (fun c => c.2))).map
      (fun i => (i, (clicks.map (fun c => c.2)).count i)))
    metadata n (fun c : ℕ => (c : α)) (fun a b h => Nat.cast_le.mpr h) hkeys
  have hrw : recommendForUserWith simf ids em dV metadata clicks u n =
      ((valueCounts clicks).take n).map
        (fun p => (getArticleInfo metadata p.1).withScore ((p.2 : ℕ) : α)) := by
    rw [recommendForUserWith_fallback simf ids em dV metadata clicks u n hhist]
    unfold getPopularArticles
    rw [if_neg hclicks]
  have hmemcount : ∀ e ∈ recommendForUserWith simf ids em dV metadata clicks u n,
      ∃ p ∈ (valueCounts clicks).take n,
        e.article_id = p.1 ∧ e.recommendation_score = ((p.2 : ℕ) : α) ∧
        p.2 = (clicks.map (fun c => c.2)).count p.1 := by
    intro e he
    rw [hrw] at he
    obtain ⟨p, hp, rfl⟩ := List.mem_map.mp he
    refine ⟨p, hp, ?_, rfl, ?_⟩
    · rw [withScore_article_id, getArticleInfo_article_id]
    · exact valueCounts_mem (List.mem_of_mem_take hp)
  refine ⟨?_, ?_, ?_, ?_⟩
  · rw [hrw]
    unfold valueCounts
    exact hshape.1
  · intro e he
    obtain ⟨p, hp, hid, hsc, hcnt⟩ := hmemcount e he
    rw [hsc, hid, ← hcnt]
  · rw [hrw]
    unfold valueCounts
    exact hshape.2.2
  · intro e he j hj hnotin
    obtain ⟨p, hp, hid, hsc, hcnt⟩ := hmemcount e he
    have hjd : (j, (clicks.map (fun c => c.2)).count j) ∈ valueCounts clicks := by
      unfold valueCounts
      refine (sortDescBy_perm _ _ _).mem_iff.mpr ?_
      exact List.mem_map_of_mem _ (mem_uniqueKeepFirst.mpr hj)
    rw [← List.take_append_drop n (valueCounts clicks), List.mem_append] at hjd
    rcases hjd with hjtake | hjdrop
    · exfalso
      apply hnotin
      rw [hrw, List.map_map]
      refine List.mem_map.mpr ⟨(j, (clicks.map (fun c => c.2)).count j), hjtake, ?_⟩
      show ((getArticleInfo metadata j).withScore _).article_id = j
      rw [withScore_article_id, getArticleInfo_article_id]
    · have hle := sortDescBy_take_drop (fun p : Int × ℕ => p.2)
        ((uniqueKeepFirst (clicks.map (fun c => c.2))).map
          (fun i => (i, (clicks.map (fun c => c.2)).count i))) (0, 0) n
        p (by unfold valueCounts at hp; exact hp)
        (j, (clicks.map (fun c => c.2)).count j)
        (by unfold valueCounts at hjdrop; exact hjdrop)
      rw [hid, ← hcnt]
      exact hle

theorem c4_witness :
    (get_user_history [((1 : Int), (200 : Int)), (2, 200), (3, 100)] 42 = []) ∧
    ([((1 : Int), (200 : Int)), (2, 200), (3, 100)] ≠ ([] : List Click)) ∧
    ((recommendForUserWith (fun _ _ => (0 : ℚ)) [] ([] : List Unit) () []
        [((1 : Int), (200 : Int)), (2, 200), (3, 100)] 42 5).length ≤ 5 ∧
     (∀ e ∈ recommendForUserWith (fun _ _ => (0 : ℚ)) [] ([] : List Unit) () []
        [((1 : Int), (200 : Int)), (2, 200), (3, 100)] 42 5,
       e.recommendation_score =
         ((([((1 : Int), (200 : Int)), (2, 200), (3, 100)].map
             (fun c => c.2)).count e.article_id : ℕ) : ℚ)) ∧
     List.Pairwise (fun a b => b.recommendation_score ≤ a.recommendation_score)
       (recommendForUserWith (fun _ _ => (0 : ℚ)) [] ([] : List Unit) () []
         [((1 : Int), (200 : Int)), (2, 200), (3, 100)] 42 5) ∧
     ∀ e ∈ recommendForUserWith (fun _ _ => (0 : ℚ)) [] ([] : List Unit) () []
        [((1 : Int), (200 : Int)), (2, 200), (3, 100)] 42 5,
       ∀ j ∈ [((1 : Int), (200 : Int)), (2, 200), (3, 100)].map (fun c => c.2),
         j ∉ (recommendForUserWith (fun _ _ => (0 : ℚ)) [] ([] : List Unit) () []
           [((1 : Int), (200 : Int)), (2, 200), (3, 100)] 42 5).map Entry.article_id →
         ([((1 : Int), (200 : Int)), (2, 200), (3, 100)].map (fun c => c.2)).count j ≤
           ([((1 : Int), (200 : Int)), (2, 200), (3, 100)].map
             (fun c => c.2)).count e.article_id) :=
  ⟨by decide, by decide,
   c4_engine_popularity_fallback (fun _ _ => (0 : ℚ)) [] ([] : List Unit) () []
     [((1 : Int), (200 : Int)), (2, 200), (3, 100)] 42 5 (by decide) (by decide)⟩

/-- C4 (counterexample): the Azure Function variant of recommend_for_user,
given an empty-history user and a non-empty interaction log, ignores the
interaction counts: it returns item 100 first with synthetic score 2
although item 100 has interaction count 1 (and item 200, with count 2, gets
score 1). -/
theorem c4_counterexample :
    (get_user_history [((1 : Int), (200 : Int)), (2, 200), (3, 100)] 42 = []) ∧
    ([((1 : Int), (200 : Int)), (2, 200), (3, 100)] ≠ ([] : List Click)) ∧
    ((fnRecommendForUser (fun _ _ => (0 : ℚ)) [(100 : Int), 200] [(), ()] () []
        [((1 : Int), (200 : Int)), (2, 200), (3, 100)] 42 2).map
      (fun e => (e.article_id, e.recommendation_score)) =
      [((100 : Int), (2 : ℚ)), (200, 1)]) ∧
    (([((1 : Int), (200 : Int)), (2, 200), (3, 100)].map (fun c => c.2)).count 100 = 1) ∧
    ((2 : ℚ) ≠ ((1 : ℕ) : ℚ)) :=
  ⟨by decide, by decide, by decide, by decide, by decide⟩

theorem dotp_pair (a b c d : ℝ) : dotp [a, b] [c, d] = a * c + b * d := by
  simp [dotp]

theorem cos_e1_e1 : cosine_similarity [(1 : ℝ), 0] [1, 0] = 1 := by
  unfold cosine_similarity rowNorm
  simp only [dotp_pair]
  norm_num [Real.sqrt_one]

theorem cos_e1_e2 : cosine_similarity [(1 : ℝ), 0] [0, 1] = 0 := by
  unfold cosine_similarity rowNorm
  simp only [dotp_pair]
  norm_num [Real.sqrt_one]

theorem cos_e1_ne1 : cosine_similarity [(1 : ℝ), 0] [-1, 0] = -1 := by
  unfold cosine_similarity rowNorm
  simp only [dotp_pair]
  norm_num [Real.sqrt_one]

theorem sortDup :
    (rangeMap [(1 : ℝ), 1, 0] 0).insertionSort ascIdx =
      [((2 : ℕ), (0 : ℝ)), (0, 1), (1, 1)] := by
  have h1 : rangeMap [(1 : ℝ), 1, 0] 0 = [((0 : ℕ), (1 : ℝ)), (1, 1), (2, 0)] := rfl
  rw [h1]
  have hbc : ¬ ascIdx ((1 : ℕ), (1 : ℝ)) (2, 0) := by
    norm_num [ascIdx]
  have hac : ¬ ascIdx ((0 : ℕ), (1 : ℝ)) (2, 0) := by
    norm_num [ascIdx]
  have hab : ascIdx ((0 : ℕ), (1 : ℝ)) (1, 1) := by
    norm_num [ascIdx]
  simp only [List.insertionSort, List.orderedInsert, if_neg hbc, if_neg hac, if_pos hab]

theorem dup_eval :
    get_similar_articles [(10 : Int), 20, 30] [[(1 : ℝ), 0], [1, 0], [0, 1]] 10 2 =
      [((10 : Int), (1 : ℝ)), (30, 0)] := by
  have h : get_similar_articles [(10 : Int), 20, 30] [[(1 : ℝ), 0], [1, 0], [0, 1]] 10 2 =
      getSimilarArticlesWith cosine_similarity [(10 : Int), 20, 30]
        [[(1 : ℝ), 0], [1, 0], [0, 1]] [] 10 2 := rfl
  rw [h, getSimilarArticlesWith_eq cosine_similarity [(10 : Int), 20, 30]
    [[(1 : ℝ), 0], [1, 0], [0, 1]] [] 10 2 (by decide)]
  have hidx : List.indexOf (10 : Int) [(10 : Int), 20, 30] = 0 := rfl
  rw [hidx]
  have hmap : [[(1 : ℝ), 0], [1, 0], [0, 1]].map
      (cosine_similarity ([[(1 : ℝ), 0], [1, 0], [0, 1]].getD 0 [])) = [1, 1, 0] := by
    show [[(1 : ℝ), 0], [1, 0], [0, 1]].map (cosine_similarity [(1 : ℝ), 0]) = [1, 1, 0]
    simp only [List.map_cons, List.map_nil, cos_e1_e1, cos_e1_e2]
  rw [hmap, sortDup]
  rfl

/-- C1 (counterexample): when another item (20) has a vector identical to
item 10's, the similarity lookup get_similar_articles(10, 2) returns item
10 itself, contradicting the claim that the result never contains the
query item even in the presence of duplicate vectors. -/
theorem c1_counterexample :
    (10 : Int) ∈ (get_similar_articles [(10 : Int), 20, 30]
      [[(1 : ℝ), 0], [1, 0], [0, 1]] 10 2).map Prod.fst := by
  rw [dup_eval]
  simp

/-- C1 (amended): get_similar_articles(i, k) always returns at most k
entries sorted by similarity score descending; it never contains i itself
provided i's self-similarity strictly exceeds the similarity of every
other stored item — the exclusion can fail when another item has a vector
identical (in direction) to i's, as the counterexample shows. -/
theorem c1_similar_articles_amended (ids : List Int) (em : List (List ℝ))
    (a : Int) (k : ℕ)
    (hnd : ids.Nodup) (hlen : ids.length = em.length) (hmem : a ∈ ids)
    (hmax : ∀ m, m < em.length → m ≠ ids.indexOf a →
      (em.map (cosine_similarity (em.getD (ids.indexOf a) []))).getD m 0 <
      (em.map (cosine_similarity (em.getD (ids.indexOf a) []))).getD (ids.indexOf a) 0) :
    (get_similar_articles ids em a k).length ≤ k ∧
    List.Pairwise (fun p q => q.2 ≤ p.2) (get_similar_articles ids em a k) ∧
    ∀ p ∈ get_similar_articles ids em a k, p.1 ≠ a :=
  ⟨getSimilarArticlesWith_length_le cosine_similarity ids em [] a k,
   getSimilarArticlesWith_sorted cosine_similarity ids em [] a k,
   getSimilarArticlesWith_excludes cosine_similarity ids em [] a k hnd hlen hmem hmax⟩

theorem sep_sims :
    [[(1 : ℝ), 0], [0, 1], [-1, 0]].map
      (cosine_similarity ([[(1 : ℝ), 0], [0, 1], [-1, 0]].getD 0 [])) = [1, 0, -1] := by
  show [[(1 : ℝ), 0], [0, 1], [-1, 0]].map (cosine_similarity [(1 : ℝ), 0]) = [1, 0, -1]
  simp only [List.map_cons, List.map_nil, cos_e1_e1, cos_e1_e2, cos_e1_ne1]

theorem c1_witness :
    ([(10 : Int), 20, 30].Nodup ∧ (10 : Int) ∈ [(10 : Int), 20, 30]) ∧
    ((get_similar_articles [(10 : Int), 20, 30]
        [[(1 : ℝ), 0], [0, 1], [-1, 0]] 10 2).length ≤ 2 ∧
     List.Pairwise (fun p q => q.2 ≤ p.2)
       (get_similar_articles [(10 : Int), 20, 30] [[(1 : ℝ), 0], [0, 1], [-1, 0]] 10 2) ∧
     ∀ p ∈ get_similar_articles [(10 : Int), 20, 30] [[(1 : ℝ), 0], [0, 1], [-1, 0]] 10 2,
       p.1 ≠ 10) := by
  refine ⟨⟨by decide, by decide⟩, ?_⟩
  refine c1_similar_articles_amended [(10 : Int), 20, 30]
    [[(1 : ℝ), 0], [0, 1], [-1, 0]] 10 2 (by decide) (by decide) (by decide) ?_
  intro m hm hne
  have hidx : List.indexOf (10 : Int) [(10 : Int), 20, 30] = 0 := rfl
  rw [hidx] at hne ⊢
  rw [sep_sims]
  have hm3 : m < 3 := hm
  have hm12 : m = 1 ∨ m = 2 := by omega
  rcases hm12 with rfl | rfl
  · show (0 : ℝ) < 1
    norm_num
  · show (-1 : ℝ) < 1
    norm_num

theorem c9_witness :
    (((10 : Int), (1 : ℝ)) ∈ get_similar_articles [(10 : Int), 20, 30]
      [[(1 : ℝ), 0], [1, 0], [0, 1]] 10 2) ∧
    (-1 ≤ (1 : ℝ) ∧ (1 : ℝ) ≤ 1) := by
  have hmem : ((10 : Int), (1 : ℝ)) ∈ get_similar_articles [(10 : Int), 20, 30]
      [[(1 : ℝ), 0], [1, 0], [0, 1]] 10 2 := by
    rw [dup_eval]
    exact List.mem_cons_self _ _
  refine ⟨hmem, ?_⟩
  exact c9_scores_bounded [(10 : Int), 20, 30] [[(1 : ℝ), 0], [1, 0], [0, 1]] 10 2
    ((10 : Int), (1 : ℝ)) hmem

end MyContent
